import Mathlib

/-!
Verification development for the `undl` repository (a Python client wrapper
around the United Nations Digital Library search API).

The definitions below are a shallow embedding of `src/undl/client.py` and
`src/undl/consts.py`.  Python values that flow through the projection are
modelled by the `PyVal` type (JSON-like values with Python truthiness);
the external `pymarc` library's record model is embedded as `MARCRecord`,
`MarcField` and `MarcSubfield`, with the handful of `pymarc` accessors the client
uses (`get_fields`, `MarcField.__getitem__`, `format_field`, `subjects`,
`subfields_as_dict`) modelled after pymarc's documented behaviour.
HTTP traffic is modelled by an oracle (`APIResponse`) describing the shape
of the body the server returned; exceptions raised by the Python code are
modelled with `Except PyError`.
-/

/-- JSON-like Python values manipulated by the client.  Dictionary keys are
`Option String` because the only non-string key the code can produce is
`None` (a missing `y` subfield used as a key in `_getDownloads`); `none`
models the Python `None` key. -/
inductive PyVal where
  | str : String → PyVal
  | intV : Int → PyVal
  | null : PyVal
  | list : List PyVal → PyVal
  | dict : List (Option String × PyVal) → PyVal

/-- Python truthiness of a `PyVal` (`bool(v)`): empty strings, empty lists,
empty dicts, `None` and `0` are falsy. -/
def truthy : PyVal → Bool
  | .str s => !s.isEmpty
  | .intV n => n != 0
  | .null => false
  | .list vs => !vs.isEmpty
  | .dict kvs => !kvs.isEmpty

/-- A Python `str | None` as a `PyVal` (`None` becomes `null`). -/
def optStrV : Option String → PyVal
  | some s => .str s
  | none => .null

/-- A Python list of strings as a `PyVal`. -/
def strListV (l : List String) : PyVal := .list (l.map .str)

/-- A Python `int | None` as a `PyVal`. -/
def optIntV : Option Int → PyVal
  | some n => .intV n
  | none => .null

/-- The f-string rendering of an `Optional[str]` (Python prints `None`). -/
def pyStrOpt : Option String → String
  | some s => s
  | none => "None"

/-- Python truthiness of an `Optional[str]` (used for `if searchId:`). -/
def truthyStrOpt : Option String → Bool
  | some s => !s.isEmpty
  | none => false

/-- One MARC subfield: a one-character code and its value (pymarc `MarcSubfield`). -/
structure MarcSubfield where
  code : String
  value : String
deriving DecidableEq, Repr

/-- One MARC field: a 3-character tag and its ordered subfields (pymarc `MarcField`). -/
structure MarcField where
  tag : String
  subfields : List MarcSubfield
deriving DecidableEq, Repr

/-- A MARC record: an ordered list of fields (pymarc `Record`). -/
structure MARCRecord where
  fields : List MarcField
deriving DecidableEq, Repr

/-- pymarc `Record.get_fields(tag)`: all fields with the given tag, in order. -/
def getFields (r : MARCRecord) (tag : String) : List MarcField :=
  r.fields.filter (fun f => f.tag = tag)

/-- pymarc `MarcField.__getitem__(code)`: the first subfield with the given code,
or Python `None` when the field has no such subfield. -/
def getSubfield (f : MarcField) (code : String) : Option String :=
  (f.subfields.find? (fun sf => sf.code = code)).map (fun sf => sf.value)

/-- pymarc `MarcField.format_field()`: the field rendered as the concatenation of
its subfield values (model; the claims only use this value opaquely). -/
def formatField (f : MarcField) : String :=
  " ".intercalate (f.subfields.map (fun sf => sf.value))

/-- pymarc `Record.subjects()`: the fields whose tag starts with the
character `6` (the first character of the tag, when there is one). -/
def recordSubjects (r : MARCRecord) : List MarcField :=
  r.fields.filter (fun f => f.tag.data.head? = some '6')

/-- One insertion step of pymarc `MarcField.subfields_as_dict()`: append the value
to the group of its code, creating the group at the end on first occurrence. -/
def sadInsert (acc : List (String × List String)) (sf : MarcSubfield) :
    List (String × List String) :=
  if acc.any (fun p => p.1 = sf.code) then
    acc.map (fun p => if p.1 = sf.code then (p.1, p.2 ++ [sf.value]) else p)
  else
    acc ++ [(sf.code, [sf.value])]

/-- pymarc `MarcField.subfields_as_dict()`: code → ordered list of values, keys in
first-occurrence order. -/
def subfieldsAsDict (f : MarcField) : List (String × List String) :=
  f.subfields.foldl sadInsert []

/-- Exceptions the embedded Python code can raise (or signal). -/
inductive PyError where
  | keyError (k : String)
  | typeError
  | notImplemented
  | transport
  | xmlParseError
  | jsonError
deriving DecidableEq, Repr

/-- Python `d[k]` on a `subfields_as_dict()` result: `KeyError` when absent. -/
def dictGetL (d : List (String × List String)) (k : String) :
    Except PyError (List String) :=
  match d.lookup k with
  | some vs => .ok vs
  | none => .error (.keyError k)

/-- Python dict insertion `d[k] = v`: update in place if the key exists,
append otherwise (insertion order preserved). -/
def pyDictInsert (d : List (Option String × PyVal)) (k : Option String)
    (v : PyVal) : List (Option String × PyVal) :=
  if d.any (fun p => p.1 = k) then
    d.map (fun p => if p.1 = k then (k, v) else p)
  else
    d ++ [(k, v)]

/-- Build a Python dict from a sequence of key/value pairs (the semantics of a
dict comprehension: later duplicates overwrite earlier ones in place). -/
def pyDictOf (pairs : List (Option String × PyVal)) :
    List (Option String × PyVal) :=
  pairs.foldl (fun d p => pyDictInsert d p.1 p.2) []

/-- Python dict insertion for string-keyed request-parameter dicts. -/
def pyParamsInsert (d : List (String × String)) (k v : String) :
    List (String × String) :=
  if d.any (fun p => p.1 = k) then
    d.map (fun p => if p.1 = k then (k, v) else p)
  else
    d ++ [(k, v)]

/-- Python dict insertion for the client's string-keyed caches. -/
def cacheInsert (d : List (String × PyVal)) (k : String) (v : PyVal) :
    List (String × PyVal) :=
  if d.any (fun p => p.1 = k) then
    d.map (fun p => if p.1 = k then (k, v) else p)
  else
    d ++ [(k, v)]

/-- The list `extractFromMARC` builds before choosing first-vs-all: for each
field with the given tag, either the first value of the requested subfield
(Python `None` when absent) or the `format_field()` text. -/
def extractAll (r : MARCRecord) (field : String) (subfield : Option String) :
    List PyVal :=
  (getFields r field).map (fun f =>
    match subfield with
    | some c => optStrV (getSubfield f c)
    | none => .str (formatField f))

/-- `UNDLClient.extractFromMARC`: build the per-field list; when
`collection=False` and the list is non-empty take its first element,
otherwise return the list itself (so zero matches yield the empty list).
In the embedding the mapped function is total (pymarc subfield access
returns `None` rather than raising), so the `try/except` never fires. -/
def extractFromMARC (r : MARCRecord) (field : String)
    (subfield : Option String := none) (collection : Bool := false) : PyVal :=
  let result := extractAll r field subfield
  match collection, result with
  | false, v :: _ => v
  | _, _ => .list result

/-- `UNDLClient._getSymbol`: tag 191 subfield `a`, falling back to tag 791
subfield `a` when the first result is falsy. -/
def getSymbol (r : MARCRecord) : PyVal :=
  let symbol := extractFromMARC r "191" (some "a") false
  if truthy symbol then symbol
  else extractFromMARC r "791" (some "a") false

/-- The `langs` list of `UNDLClient._getDownloads`: the first `y` subfield
value of each 856 field — the `collection=True` extraction of subfield `y`
(see `extractFromMARC_collection_eq`). -/
def langsOf (r : MARCRecord) : List (Option String) :=
  (getFields r "856").map (fun f => getSubfield f "y")

/-- The `links` list of `UNDLClient._getDownloads`: the first `u` subfield
value of each 856 field — the `collection=True` extraction of subfield `u`
(see `extractFromMARC_collection_eq`). -/
def linksOf (r : MARCRecord) : List (Option String) :=
  (getFields r "856").map (fun f => getSubfield f "u")

/-- `UNDLClient._getDownloads`: zip the per-856-field first `y` subfield
values (languages) with the first `u` subfield values (links) into a dict,
mirroring the comprehension `{lang: link for lang, link in zip(langs, links)}`. -/
def getDownloads (r : MARCRecord) : PyVal :=
  .dict (pyDictOf (((langsOf r).zip (linksOf r)).map
    (fun p => (p.1, optStrV p.2))))

/-- One iteration of the loop in `UNDLClient._getSubjects`: look up the `2`
and `a` subfield groups of the subject field (Python raises `KeyError` when
one is absent) and extend the bucket selected by the `2` group. -/
def subjectsStep (acc : List String × List String × List String)
    (f : MarcField) :
    Except PyError (List String × List String × List String) := do
  let two ← dictGetL (subfieldsAsDict f) "2"
  let a ← dictGetL (subfieldsAsDict f) "a"
  if two = ["unbist"] then pure (acc.1 ++ a, acc.2.1, acc.2.2)
  else if two = ["unbisn"] then pure (acc.1, acc.2.1 ++ a, acc.2.2)
  else pure (acc.1, acc.2.1, acc.2.2 ++ a)

/-- `UNDLClient._getSubjects`: classify every field returned by
`record.subjects()` into the three buckets; propagates the `KeyError` a
missing `2` or `a` subfield raises. -/
def getSubjects (r : MARCRecord) : Except PyError PyVal := do
  let (unbist, unbisn, misc) ← (recordSubjects r).foldlM subjectsStep ([], [], [])
  pure (.dict [(some "unbist", strListV unbist),
               (some "unbisn", strListV unbisn),
               (some "misc", strListV misc)])

/-- `UNDLClient._getCollections`: the `subfields_as_dict()` of the first 989
and 981 fields (empty dict when the tag is absent); each output list takes
the first value of every subfield group (`v[0]`; groups are non-empty by
construction, so the `headD` default is never used). -/
def getCollections (r : MARCRecord) : PyVal :=
  let resource_type :=
    match r.fields.find? (fun f => f.tag = "989") with
    | some f => subfieldsAsDict f
    | none => []
  let un_bodies :=
    match r.fields.find? (fun f => f.tag = "981") with
    | some f => subfieldsAsDict f
    | none => []
  .dict [(some "resource_type", .list (resource_type.map (fun p => .str (p.2.headD "")))),
         (some "un_bodies", .list (un_bodies.map (fun p => .str (p.2.headD ""))))]

/-- The body of the per-record loop in `UNDLClient.parseMARCXML`: the record
dict in source order, before the falsy filter.  Computed after `getSubjects`
succeeds (a `KeyError` there propagates out of the whole parse, exactly as
in the Python loop). -/
def projectEntries (r : MARCRecord) (subjects : PyVal) :
    List (Option String × PyVal) :=
  [(some "id", extractFromMARC r "001" none false),
   (some "title", extractFromMARC r "245" none false),
   (some "alt_title", extractFromMARC r "239" none false),
   (some "location", extractFromMARC r "260" (some "a") false),
   (some "symbol", getSymbol r),
   (some "publication_date", extractFromMARC r "269" none false),
   (some "summary", extractFromMARC r "520" none false),
   (some "authors", extractFromMARC r "710" (some "a") true),
   (some "description", extractFromMARC r "300" none false),
   (some "downloads", getDownloads r),
   (some "subjects", subjects),
   (some "agenda", extractFromMARC r "991" none false),
   (some "collections", getCollections r),
   (some "related_documents", extractFromMARC r "993" none true)]

/-- The projection of one record in `UNDLClient.parseMARCXML`: the fixed
record dict followed by `{k: v for k, v in record.items() if v}`. -/
def projectRecord (r : MARCRecord) :
    Except PyError (List (Option String × PyVal)) := do
  let subjects ← getSubjects r
  pure ((projectEntries r subjects).filter (fun p => truthy p.2))

/-- A projected record as a `PyVal` dict. -/
def projectRecordV (r : MARCRecord) : Except PyError PyVal := do
  pure (.dict (← projectRecord r))

/-- The `for record in records` loop of `UNDLClient.parseMARCXML`: project
every record in order; the first projection error aborts the whole loop
(the Python exception propagates out of `parseMARCXML`). -/
def projectAll : List MARCRecord → Except PyError (List PyVal)
  | [] => pure []
  | r :: rs => do
    let v ← projectRecordV r
    let vs ← projectAll rs
    pure (v :: vs)

/-- `UNDLClient.parseMARCXML` on the records pymarc produced from the XML
file: project every record in order (a projection error aborts the whole
parse) and wrap them with `total` and `search_id`. -/
def parseMARCXML (recs : List MARCRecord) (total : Option Int)
    (searchId : Option String) : Except PyError PyVal := do
  let projected ← projectAll recs
  pure (.dict [(some "total", optIntV total),
               (some "search_id", optStrV searchId),
               (some "records", .list projected)])

/-- `consts.API_BASE_URL`. -/
def API_BASE_URL : String := "https://digitallibrary.un.org/api/v1/search"

/-- `consts.BASE_URL`. -/
def BASE_URL : String := "https://digitallibrary.un.org/search"

/-- `consts.MAX_NB_RESULTS` (defined in `consts.py`; the client never reads it). -/
def MAX_NB_RESULTS : Nat := 200

/-- `consts.DEFAULT_API_FORMAT`. -/
def DEFAULT_API_FORMAT : String := "xml"

/-- `consts.DEFAULT_FORMAT`. -/
def DEFAULT_FORMAT : String := "marcxml"

/-- Oracle for one HTTP exchange: the shape of what the GET produced.
`xml` is a body from which the official `marcxml` branch can read `total`,
`search_id` and a `collection` of records; `jsonBody` is a JSON-decodable
body; `marcCollection` is a body pymarc can parse as MARCXML (the
unofficial endpoint); `malformed` is any body on which the branch's parsing
raises; `transportFailure` models `requests.get` itself raising. -/
inductive APIResponse where
  | xml (total : Int) (searchId : Option String) (records : List MARCRecord)
  | jsonBody (v : PyVal)
  | marcCollection (records : List MARCRecord)
  | malformed
  | transportFailure

/-- An outbound HTTP request as the client builds it. -/
structure HTTPRequest where
  url : String
  params : List (String × String)
  headers : List (String × String)
deriving Repr

/-- Python `len(v)` (`None` for objects with no `len`). -/
def pyLen : PyVal → Option Nat
  | .str s => some s.length
  | .list vs => some vs.length
  | .dict kvs => some kvs.length
  | _ => none

/-- Python `v[k]` for a string subscript: `KeyError` when the dict lacks the
key, `TypeError` when `v` is not a dict. -/
def pySubscript (v : PyVal) (k : String) : Except PyError PyVal :=
  match v with
  | .dict kvs =>
    match kvs.lookup (some k) with
    | some x => .ok x
    | none => .error (.keyError k)
  | _ => .error .typeError

/-- `UNDLClient._query`: add `search_id` to the params when truthy, issue the
GET against `API_BASE_URL` with the `Token <apiKey>` authorization header
(the f-string renders a missing key as `Token None`; there is no credential
check), then branch on `outputFormat`: `marcxml` parses the XML wrapper and
projects the records, `json` decodes the body and touches
`parsedResponse["hits"]` in the success log, anything else raises
`NotImplementedError`.  A transport failure raises before the branch. -/
def underscoreQuery (params : List (String × String)) (outputFormat : String)
    (apiKey : Option String) (searchId : Option String) (resp : APIResponse) :
    HTTPRequest × Except PyError PyVal :=
  let params :=
    if truthyStrOpt searchId then
      pyParamsInsert params "search_id" (searchId.getD "")
    else params
  let req : HTTPRequest :=
    { url := API_BASE_URL,
      params := params,
      headers := [("content-type", "application/xml"),
                  ("Authorization", "Token " ++ pyStrOpt apiKey)] }
  let result : Except PyError PyVal :=
    match resp with
    | .transportFailure => .error .transport
    | _ =>
      match outputFormat with
      | "marcxml" =>
        match resp with
        | .xml total sid recs => parseMARCXML recs (some total) sid
        | _ => .error .xmlParseError
      | "json" =>
        match resp with
        | .jsonBody v => do
          let hits ← pySubscript v "hits"
          match pyLen hits with
          | some _ => pure v
          | none => .error .typeError
        | _ => .error .jsonError
      | _ => .error .notImplemented
  (req, result)

/-- `UNDLClient._queryUnofficial`: GET against `BASE_URL`, write the body to
a scratch file, then branch on `outputFormat`: `marcxml` parses the body
with pymarc and projects (no `total`/`search_id`), anything else raises
`NotImplementedError`. -/
def underscoreQueryUnofficial (params : List (String × String))
    (outputFormat : String) (resp : APIResponse) :
    HTTPRequest × Except PyError PyVal :=
  let req : HTTPRequest := { url := BASE_URL, params := params, headers := [] }
  let result : Except PyError PyVal :=
    match resp with
    | .transportFailure => .error .transport
    | _ =>
      match outputFormat with
      | "marcxml" =>
        match resp with
        | .marcCollection recs => parseMARCXML recs none none
        | _ => .error .xmlParseError
      | _ => .error .notImplemented
  (req, result)

/-- The three in-memory caches of `UNDLClient`. -/
structure ClientState where
  query_cache : List (String × PyVal)
  id_cache : List (String × PyVal)
  record_cache : List (String × PyVal)

/-- The `_query` call made by `UNDLClient.query` on a cache miss: the params
dict `{"p": prompt, "format": outputFormat, "ln": lang}` with
`outputFormat="marcxml"` hard-coded for the call itself. -/
def queryCall (prompt outputFormat lang : String) (apiKey : Option String)
    (searchId : Option String) (resp : APIResponse) :
    HTTPRequest × Except PyError PyVal :=
  underscoreQuery [("p", prompt), ("format", outputFormat), ("ln", lang)]
    "marcxml" apiKey searchId resp

/-- `UNDLClient.query`: cache check on `prompt` (a hit returns the cached
object with no request), otherwise build the params, call `_query` with
`outputFormat="marcxml"` hard-coded, store the result in `query_cache` on
success (an exception propagates before the store) and return it.  The
third component reports the request issued (`none` on a cache hit). -/
def query (st : ClientState) (prompt : String) (outputFormat : String)
    (lang : String) (apiKey : Option String) (searchId : Option String)
    (resp : APIResponse) :
    Except PyError PyVal × ClientState × Option HTTPRequest :=
  match st.query_cache.lookup prompt with
  | some v => (.ok v, st, none)
  | none =>
    match (queryCall prompt outputFormat lang apiKey searchId resp).2 with
    | .ok v =>
      (.ok v, { st with query_cache := cacheInsert st.query_cache prompt v },
       some (queryCall prompt outputFormat lang apiKey searchId resp).1)
    | .error e =>
      (.error e, st,
       some (queryCall prompt outputFormat lang apiKey searchId resp).1)

/-- The `_query` call made by `UNDLClient.getAllRecordIds` on a cache miss:
params `{"p": prompt, "ln": "en"}` with `outputFormat="json"`; the API key
is the ambient `os.getenv("UN_API")` default. -/
def idsCall (prompt : String) (apiKey : Option String) (resp : APIResponse) :
    HTTPRequest × Except PyError PyVal :=
  underscoreQuery [("p", prompt), ("ln", "en")] "json" apiKey none resp

/-- `UNDLClient.getAllRecordIds`: cache check on `prompt` in `id_cache`,
otherwise `_query` with `outputFormat="json"`, storing in `id_cache` only
on success. -/
def getAllRecordIds (st : ClientState) (prompt : String)
    (apiKey : Option String) (resp : APIResponse) :
    Except PyError PyVal × ClientState × Option HTTPRequest :=
  match st.id_cache.lookup prompt with
  | some v => (.ok v, st, none)
  | none =>
    match (idsCall prompt apiKey resp).2 with
    | .ok v =>
      (.ok v, { st with id_cache := cacheInsert st.id_cache prompt v },
       some (idsCall prompt apiKey resp).1)
    | .error e => (.error e, st, some (idsCall prompt apiKey resp).1)

/-- The `_queryUnofficial` call made by `UNDLClient.queryById` on a cache
miss: params `{"recid": recordId, "of": "xm", "c": "Resource Type"}` with
`outputFormat="marcxml"`. -/
def byIdCall (recordId : String) (resp : APIResponse) :
    HTTPRequest × Except PyError PyVal :=
  underscoreQueryUnofficial
    [("recid", recordId), ("of", "xm"), ("c", "Resource Type")] "marcxml" resp

/-- `UNDLClient.queryById`: cache check on `recordId` in `record_cache`,
otherwise `_queryUnofficial` with `outputFormat="marcxml"`, storing in
`record_cache` only on success. -/
def queryById (st : ClientState) (recordId : String) (resp : APIResponse) :
    Except PyError PyVal × ClientState × Option HTTPRequest :=
  match st.record_cache.lookup recordId with
  | some v => (.ok v, st, none)
  | none =>
    match (byIdCall recordId resp).2 with
    | .ok v =>
      (.ok v, { st with record_cache := cacheInsert st.record_cache recordId v },
       some (byIdCall recordId resp).1)
    | .error e => (.error e, st, some (byIdCall recordId resp).1)

/-!
Spec-side definitions used to state the claims, and the concrete records
used by counterexamples and witnesses.
-/

/-- `isOk` test for the embedded exception monad. -/
def exceptIsOk {α : Type} : Except PyError α → Bool
  | .ok _ => true
  | .error _ => false

/-- A subject field on which `_getSubjects` does not raise: both the `2` and
the `a` subfield groups are present. -/
def hasSubjectKeys (f : MarcField) : Bool :=
  ((subfieldsAsDict f).lookup "2").isSome &&
  ((subfieldsAsDict f).lookup "a").isSome

/-- The `2` subfield group of a subject field (selector of the bucket). -/
def twoValue (f : MarcField) : Option (List String) :=
  (subfieldsAsDict f).lookup "2"

/-- The `a` subfield group of a subject field (the appended terms). -/
def aValues (f : MarcField) : List String :=
  ((subfieldsAsDict f).lookup "a").getD []

/-- The subject terms of the instances whose `2` group is `["unbist"]`. -/
def bucketUnbist (l : List MarcField) : List String :=
  ((l.filter (fun f => twoValue f = some ["unbist"])).map aValues).flatten

/-- The subject terms of the instances whose `2` group is `["unbisn"]`. -/
def bucketUnbisn (l : List MarcField) : List String :=
  ((l.filter (fun f => twoValue f = some ["unbisn"])).map aValues).flatten

/-- The subject terms of every other subject instance. -/
def bucketMisc (l : List MarcField) : List String :=
  ((l.filter (fun f => twoValue f ≠ some ["unbist"] ∧
    twoValue f ≠ some ["unbisn"])).map aValues).flatten

/-- A record whose only subject field has an `a` subfield but no `2`
subfield (structurally incomplete for `_getSubjects`). -/
def badSubjRec : MARCRecord := ⟨[⟨"650", [⟨"a", "PEACE"⟩]⟩]⟩

/-- A record with one subject instance for each of the three buckets. -/
def wRec : MARCRecord :=
  ⟨[⟨"650", [⟨"2", "unbist"⟩, ⟨"a", "CLIMATE"⟩]⟩,
    ⟨"650", [⟨"2", "unbisn"⟩, ⟨"a", "NILE"⟩]⟩,
    ⟨"651", [⟨"2", "lcsh"⟩, ⟨"a", "EGYPT"⟩]⟩]⟩

/-- A record with two 856 fields carrying the links `url-en`/`url-fr` and
the language labels `E`/`F`. -/
def dlRec : MARCRecord :=
  ⟨[⟨"856", [⟨"u", "url-en"⟩, ⟨"y", "E"⟩]⟩,
    ⟨"856", [⟨"u", "url-fr"⟩, ⟨"y", "F"⟩]⟩]⟩

/-- A record with a single title field. -/
def c5rec : MARCRecord := ⟨[⟨"245", [⟨"a", "T"⟩]⟩]⟩

/-!
Helper lemmas shared by several claims.
-/

theorem except_bind_ok {α β : Type} (a : α) (f : α → Except PyError β) :
    (Except.ok a >>= f) = f a := rfl

theorem except_bind_error {α β : Type} (e : PyError)
    (f : α → Except PyError β) :
    ((Except.error e : Except PyError α) >>= f) = .error e := rfl

theorem except_pure {α : Type} (a : α) :
    (pure a : Except PyError α) = .ok a := rfl

/-- With `collection=True`, `extractFromMARC` returns the whole per-field
list (as used by `_getDownloads` and the repeatable projections). -/
theorem extractFromMARC_collection_eq (r : MARCRecord) (field : String)
    (sf : Option String) :
    extractFromMARC r field sf true = .list (extractAll r field sf) := by
  unfold extractFromMARC
  cases extractAll r field sf <;> rfl

/-- A successful run of the projection loop yields one projected record per
input record. -/
theorem projectAll_length (recs : List MARCRecord) (vs : List PyVal)
    (h : projectAll recs = .ok vs) : vs.length = recs.length := by
  induction recs generalizing vs with
  | nil =>
    have : ([] : List PyVal) = vs := Except.ok.inj h
    simp [← this]
  | cons r rs ih =>
    unfold projectAll at h
    cases hp : projectRecordV r with
    | error e => rw [hp] at h; exact Except.noConfusion h
    | ok v =>
      rw [hp] at h
      cases hq : projectAll rs with
      | error e => rw [hq] at h; exact Except.noConfusion h
      | ok vs2 =>
        rw [hq] at h
        have h2 : v :: vs2 = vs := Except.ok.inj h
        rw [← h2]
        simp [ih vs2 hq]

/-- The subjects fold succeeds exactly when every subject field carries both
a `2` and an `a` subfield group. -/
theorem subjects_foldlM_ok_iff (l : List MarcField)
    (acc : List String × List String × List String) :
    exceptIsOk (l.foldlM subjectsStep acc) = true ↔
    ∀ f ∈ l, hasSubjectKeys f = true := by
  induction l generalizing acc with
  | nil => simp [List.foldlM, except_pure, exceptIsOk]
  | cons f fs ih =>
    simp only [List.foldlM, List.forall_mem_cons]
    cases h2 : (subfieldsAsDict f).lookup "2" with
    | none =>
      have hstep : subjectsStep acc f = .error (.keyError "2") := by
        unfold subjectsStep dictGetL
        rw [h2]
        rfl
      rw [hstep, except_bind_error]
      simp [exceptIsOk, hasSubjectKeys, h2]
    | some t =>
      cases ha : (subfieldsAsDict f).lookup "a" with
      | none =>
        have hstep : subjectsStep acc f = .error (.keyError "a") := by
          unfold subjectsStep dictGetL
          rw [h2, ha]
          rfl
        rw [hstep, except_bind_error]
        simp [exceptIsOk, hasSubjectKeys, h2, ha]
      | some a =>
        have hstep : ∃ acc2, subjectsStep acc f = .ok acc2 := by
          unfold subjectsStep dictGetL
          rw [h2, ha]
          simp only [except_bind_ok]
          split
          · exact ⟨_, rfl⟩
          · split
            · exact ⟨_, rfl⟩
            · exact ⟨_, rfl⟩
        obtain ⟨acc2, hstep⟩ := hstep
        rw [hstep, except_bind_ok, ih acc2]
        simp [hasSubjectKeys, h2, ha]

/-- A run of the subjects fold over well-formed subject fields computes, in
order, the three buckets characterised by filtering on the `2` group. -/
theorem subjects_foldlM_partition (l : List MarcField)
    (acc : List String × List String × List String)
    (h : ∀ f ∈ l, hasSubjectKeys f = true) :
    l.foldlM subjectsStep acc =
      .ok (acc.1 ++ bucketUnbist l, acc.2.1 ++ bucketUnbisn l,
           acc.2.2 ++ bucketMisc l) := by
  induction l generalizing acc with
  | nil =>
    simp [List.foldlM, bucketUnbist, bucketUnbisn, bucketMisc, except_pure]
  | cons f fs ih =>
    have hf := h f (List.mem_cons_self f fs)
    unfold hasSubjectKeys at hf
    rw [Bool.and_eq_true] at hf
    obtain ⟨t, h2⟩ := Option.isSome_iff_exists.mp hf.1
    obtain ⟨a, haa⟩ := Option.isSome_iff_exists.mp hf.2
    have htail : ∀ g ∈ fs, hasSubjectKeys g = true :=
      fun g hg => h g (List.mem_cons_of_mem f hg)
    simp only [List.foldlM]
    by_cases h1 : t = ["unbist"]
    · have hstep : subjectsStep acc f = .ok (acc.1 ++ a, acc.2.1, acc.2.2) := by
        unfold subjectsStep dictGetL
        rw [h2, haa]
        simp [except_bind_ok, except_pure, h1]
      rw [hstep, except_bind_ok, ih _ htail]
      simp [bucketUnbist, bucketUnbisn, bucketMisc, twoValue, aValues,
        h2, haa, h1, List.append_assoc]
    · by_cases hn : t = ["unbisn"]
      · have hstep : subjectsStep acc f =
            .ok (acc.1, acc.2.1 ++ a, acc.2.2) := by
          unfold subjectsStep dictGetL
          rw [h2, haa]
          simp [except_bind_ok, except_pure, h1, hn]
        rw [hstep, except_bind_ok, ih _ htail]
        simp [bucketUnbist, bucketUnbisn, bucketMisc, twoValue, aValues,
          h2, haa, h1, hn, List.append_assoc]
      · have hstep : subjectsStep acc f =
            .ok (acc.1, acc.2.1, acc.2.2 ++ a) := by
          unfold subjectsStep dictGetL
          rw [h2, haa]
          simp [except_bind_ok, except_pure, h1, hn]
        rw [hstep, except_bind_ok, ih _ htail]
        simp [bucketUnbist, bucketUnbisn, bucketMisc, twoValue, aValues,
          h2, haa, h1, hn, List.append_assoc]

/-- Folding Python dict insertions over pairs whose keys avoid the
accumulator and repeat no key simply appends the pairs. -/
theorem pyDictOf_aux (ps : List (Option String × PyVal))
    (acc : List (Option String × PyVal))
    (hd : ∀ p ∈ ps, acc.any (fun q => q.1 = p.1) = false)
    (hn : (ps.map Prod.fst).Nodup) :
    ps.foldl (fun d p => pyDictInsert d p.1 p.2) acc = acc ++ ps := by
  induction ps generalizing acc with
  | nil => simp
  | cons p ps ih =>
    have hp : acc.any (fun q => q.1 = p.1) = false := hd p (by simp)
    simp only [List.foldl_cons]
    rw [show pyDictInsert acc p.1 p.2 = acc ++ [p] from by
      simp [pyDictInsert, hp]]
    rw [ih (acc ++ [p]) ?_ ?_]
    · simp
    · intro q hq
      rw [List.any_append]
      have hq1 : acc.any (fun r => r.1 = q.1) = false :=
        hd q (List.mem_cons_of_mem p hq)
      have hq2 : p.1 ≠ q.1 := by
        intro he
        have : q.1 ∈ ps.map Prod.fst := List.mem_map_of_mem Prod.fst hq
        rw [← he] at this
        exact (List.nodup_cons.mp (by simpa using hn)).1 this
      simp [hq1, hq2]
    · exact (List.nodup_cons.mp (by simpa using hn)).2

/-- A Python dict built from pairs with pairwise-distinct keys is exactly
that pair list. -/
theorem pyDictOf_nodup (ps : List (Option String × PyVal))
    (hn : (ps.map Prod.fst).Nodup) : pyDictOf ps = ps :=
  pyDictOf_aux ps [] (by simp) hn

/-!
The claims.
-/

/-- Claim C1, counterexample.  The claim says a record with no subject
fields has no `subjects` key at all in its projection; on the code, the
projection of a record with no fields at all still contains the `subjects`
key, mapped to the three empty buckets (a non-empty dict is Python-truthy
and survives the falsy filter), and likewise the `collections` key. -/
theorem projection_keeps_empty_subjects :
    projectRecord ⟨[]⟩ = .ok
      [(some "subjects", .dict [(some "unbist", .list []),
         (some "unbisn", .list []), (some "misc", .list [])]),
       (some "collections", .dict [(some "resource_type", .list []),
         (some "un_bodies", .list [])])] := rfl

/-- Claim C1, amended: every key kept by the projection of any record has a
Python-truthy value (empty strings, empty sequences, empty mappings and
nulls are removed) — but a mapping of empty lists is truthy, so the
`subjects`/`collections` keys survive (see the counterexample). -/
theorem projection_filters_falsy (r : MARCRecord)
    (kvs : List (Option String × PyVal)) (h : projectRecord r = .ok kvs) :
    ∀ p ∈ kvs, truthy p.2 = true := by
  intro p hp
  unfold projectRecord at h
  cases hs : getSubjects r with
  | error e => rw [hs] at h; exact Except.noConfusion h
  | ok s =>
    rw [hs] at h
    have h2 : (projectEntries r s).filter (fun p => truthy p.2) = kvs :=
      Except.ok.inj h
    rw [← h2] at hp
    exact (List.mem_filter.mp hp).2

theorem projection_filters_falsy_witness :
    truthy (PyVal.dict [(some "unbist", .list []), (some "unbisn", .list []),
      (some "misc", .list [])]) = true :=
  projection_filters_falsy ⟨[]⟩ _ rfl
    (some "subjects", PyVal.dict [(some "unbist", .list []),
      (some "unbisn", .list []), (some "misc", .list [])])
    (List.Mem.head _)

/-- Claim C2, counterexample.  The claim says `extractFromMARC` with
`collection=False` returns null when zero fields match the tag; on the
code, matching zero fields returns the empty list (a falsy value, but not
`None`). -/
theorem extract_zero_matches_not_null :
    extractFromMARC ⟨[]⟩ "245" none false = .list [] ∧
    PyVal.list [] ≠ PyVal.null :=
  ⟨rfl, fun h => PyVal.noConfusion h⟩

/-- Claim C2, amended: with `collection=False`, `extractFromMARC` returns
the first matching field's value when at least one field matches and the
empty sequence (not null) when zero match; with `collection=True` it
returns a sequence whose length equals the number of matching field
instances. -/
theorem extractFromMARC_spec (r : MARCRecord) (tag : String)
    (sf : Option String) :
    (getFields r tag = [] → extractFromMARC r tag sf false = .list []) ∧
    (∀ f fs, getFields r tag = f :: fs →
      extractFromMARC r tag sf false =
        (match sf with
         | some c => optStrV (getSubfield f c)
         | none => .str (formatField f))) ∧
    (extractFromMARC r tag sf true = .list (extractAll r tag sf) ∧
      (extractAll r tag sf).length = (getFields r tag).length) := by
  refine ⟨?_, ?_, extractFromMARC_collection_eq r tag sf, ?_⟩
  · intro h
    unfold extractFromMARC extractAll
    rw [h]
    rfl
  · intro f fs h
    unfold extractFromMARC extractAll
    rw [h]
    cases sf <;> rfl
  · unfold extractAll
    simp

theorem extractFromMARC_spec_witness :
    extractFromMARC ⟨[]⟩ "001" none false = .list [] ∧
    extractFromMARC ⟨[⟨"245", [⟨"a", "T"⟩]⟩]⟩ "245" none false = .str "T" := by
  refine ⟨(extractFromMARC_spec ⟨[]⟩ "001" none).1 rfl, ?_⟩
  have h := (extractFromMARC_spec ⟨[⟨"245", [⟨"a", "T"⟩]⟩]⟩ "245" none).2.1
    ⟨"245", [⟨"a", "T"⟩]⟩ [] rfl
  simpa using h

/-- Claim C3: when the prompt is already a key of the prompt cache, `query`
returns exactly the cached object, leaves the whole cache state unchanged,
and issues no HTTP request (the request component is `none`). -/
theorem query_cache_hit (st : ClientState) (prompt outputFormat lang : String)
    (apiKey searchId : Option String) (resp : APIResponse) (v : PyVal)
    (h : st.query_cache.lookup prompt = some v) :
    query st prompt outputFormat lang apiKey searchId resp =
      (.ok v, st, none) := by
  unfold query
  rw [h]

theorem query_cache_hit_witness :
    query ⟨[("women", .str "cached")], [], []⟩ "women" "xml" "en" none none
        .malformed =
      (.ok (.str "cached"), ⟨[("women", .str "cached")], [], []⟩, none) :=
  query_cache_hit ⟨[("women", .str "cached")], [], []⟩ "women" "xml" "en"
    none none .malformed (.str "cached") rfl

/-- Claim C4: the `downloads` projection is the dict built by positionally
zipping the per-856-field language labels (`y`) with the links (`u`):
when the labels are pairwise distinct the dict pairs them index by index,
and its size is the minimum of the two lengths (zip truncates to the
shorter list).  The claim's concrete instance is the witness. -/
theorem downloads_positional_zip (r : MARCRecord)
    (h : (langsOf r).Nodup) :
    getDownloads r = .dict
      (((langsOf r).zip (linksOf r)).map (fun p => (p.1, optStrV p.2))) ∧
    (((langsOf r).zip (linksOf r)).map (fun p => (p.1, optStrV p.2))).length =
      min (langsOf r).length (linksOf r).length := by
  have hlen : (langsOf r).length ≤ (linksOf r).length := by
    simp [langsOf, linksOf]
  have hkeys : ((((langsOf r).zip (linksOf r)).map
      (fun p => (p.1, optStrV p.2))).map Prod.fst).Nodup := by
    rw [List.map_map]
    rw [show ((langsOf r).zip (linksOf r)).map
        (Prod.fst ∘ fun p => (p.1, optStrV p.2)) =
        ((langsOf r).zip (linksOf r)).map Prod.fst from rfl]
    rw [List.map_fst_zip _ _ hlen]
    exact h
  constructor
  · unfold getDownloads
    rw [pyDictOf_nodup _ hkeys]
  · rw [List.length_map, List.length_zip]

theorem downloads_positional_zip_witness :
    getDownloads dlRec =
      .dict [(some "E", .str "url-en"), (some "F", .str "url-fr")] :=
  ((downloads_positional_zip dlRec (by decide)).1).trans rfl

/-- Claim C5, counterexample.  The claim says `records` never exceeds
`min(requested_count_clamped_to_200, total)`; on the code, a response
reporting `total = 0` whose collection carries one record yields a
`records` sequence of length 1, and `min MAX_NB_RESULTS 0 = 0 < 1` (no
clamping or bounding by `total` exists anywhere in the client). -/
theorem query_records_exceed_total :
    (query ⟨[], [], []⟩ "peace" "xml" "en" (some "k") none
        (.xml 0 (some "sid") [c5rec])).1 =
      .ok (.dict [(some "total", .intV 0), (some "search_id", .str "sid"),
        (some "records", .list [.dict
          [(some "title", .str "T"),
           (some "subjects", .dict [(some "unbist", .list []),
             (some "unbisn", .list []), (some "misc", .list [])]),
           (some "collections", .dict [(some "resource_type", .list []),
             (some "un_bodies", .list [])])]])]) ∧
    min MAX_NB_RESULTS 0 < 1 :=
  ⟨rfl, by decide⟩

/-- Claim C5, amended: the client takes no result-count parameter and
applies no clamp (`MAX_NB_RESULTS` is defined in `consts.py` but never
read); for a cache-missing free-text query whose response projects
successfully, `records` contains exactly one entry per record of the
response's collection subtree, independent of the reported `total`. -/
theorem query_no_clamp (st : ClientState) (prompt outputFormat lang : String)
    (apiKey searchId : Option String) (total : Int) (rsid : Option String)
    (recs : List MARCRecord) (projs : List PyVal)
    (hmiss : st.query_cache.lookup prompt = none)
    (hproj : projectAll recs = .ok projs) :
    (query st prompt outputFormat lang apiKey searchId
        (.xml total rsid recs)).1 =
      .ok (.dict [(some "total", .intV total),
                  (some "search_id", optStrV rsid),
                  (some "records", .list projs)]) ∧
    projs.length = recs.length := by
  have hcall : (queryCall prompt outputFormat lang apiKey searchId
      (.xml total rsid recs)).2 =
      .ok (.dict [(some "total", .intV total),
                  (some "search_id", optStrV rsid),
                  (some "records", .list projs)]) := by
    show parseMARCXML recs (some total) rsid = _
    unfold parseMARCXML
    rw [hproj]
    rfl
  refine ⟨?_, projectAll_length recs projs hproj⟩
  unfold query
  rw [hmiss, hcall]

theorem query_no_clamp_witness :
    (query ⟨[], [], []⟩ "w" "xml" "en" none none
        (.xml 7 none [⟨[]⟩])).1 =
      .ok (.dict [(some "total", .intV 7), (some "search_id", .null),
        (some "records", .list [.dict
          [(some "subjects", .dict [(some "unbist", .list []),
             (some "unbisn", .list []), (some "misc", .list [])]),
           (some "collections", .dict [(some "resource_type", .list []),
             (some "un_bodies", .list [])])]])]) :=
  (query_no_clamp ⟨[], [], []⟩ "w" "xml" "en" none none 7 none [⟨[]⟩] _
    rfl rfl).1

/-- Claim C6, counterexample.  The claim says querying the official
endpoint with no API key reports an error and returns a null result; on
the code there is no credential check: with `apiKey = None` the request is
issued with header `Authorization: Token None` and a parseable response
yields a normal successful result, not an error or null. -/
theorem missing_key_no_error :
    (underscoreQuery [("p", "x")] "marcxml" none none (.xml 1 none [])).2 =
      .ok (.dict [(some "total", .intV 1), (some "search_id", .null),
        (some "records", .list [])]) ∧
    (underscoreQuery [("p", "x")] "marcxml" none none
        (.xml 1 none [])).1.headers =
      [("content-type", "application/xml"),
       ("Authorization", "Token None")] :=
  ⟨rfl, rfl⟩

/-- Claim C6, amended: `_query` performs no credential check — its result
is independent of the API key (the key only reaches the `Authorization`
header, rendered as `Token None` when absent), so a missing key triggers
neither an error report nor a null return; the outcome is decided entirely
by the response. -/
theorem underscoreQuery_key_independent (params : List (String × String))
    (outputFormat : String) (k1 k2 searchId : Option String)
    (resp : APIResponse) :
    (underscoreQuery params outputFormat k1 searchId resp).2 =
      (underscoreQuery params outputFormat k2 searchId resp).2 ∧
    (underscoreQuery params outputFormat k1 searchId resp).1.headers =
      [("content-type", "application/xml"),
       ("Authorization", "Token " ++ pyStrOpt k1)] :=
  ⟨rfl, rfl⟩

/-- Claim C7, counterexample.  The claim says a structural error in a MARC
field never aborts projection of the rest of the record; on the code, a
subject field lacking the `2` subfield raises `KeyError` inside
`_getSubjects`, aborting the projection of the whole record. -/
theorem subject_keyerror_aborts_record :
    projectRecord badSubjRec = .error (.keyError "2") := rfl

/-- Claim C7, amended: `extractFromMARC` itself never raises (structural
problems only yield null/empty values), but the subjects projection is
unprotected — projection of a record succeeds precisely when every subject
field carries both a `2` and an `a` subfield group. -/
theorem projectRecord_ok_iff (r : MARCRecord) :
    exceptIsOk (projectRecord r) = true ↔
    ∀ f ∈ recordSubjects r, hasSubjectKeys f = true := by
  have hred : exceptIsOk (projectRecord r) =
      exceptIsOk ((recordSubjects r).foldlM subjectsStep ([], [], [])) := by
    unfold projectRecord getSubjects
    cases hf : (recordSubjects r).foldlM subjectsStep ([], [], []) with
    | ok acc => rfl
    | error e => rfl
  rw [hred]
  exact subjects_foldlM_ok_iff (recordSubjects r) ([], [], [])

/-- Claim C8: over a record whose subject fields all carry `2` and `a`
groups, `_getSubjects` classifies every instance into exactly one bucket —
`unbist` collects the `a` values of the instances whose `2` group is
`["unbist"]`, `unbisn` those with `["unbisn"]`, and `misc` all others — in
source order. -/
theorem getSubjects_partition (r : MARCRecord)
    (h : ∀ f ∈ recordSubjects r, hasSubjectKeys f = true) :
    getSubjects r = .ok (.dict
      [(some "unbist", strListV (bucketUnbist (recordSubjects r))),
       (some "unbisn", strListV (bucketUnbisn (recordSubjects r))),
       (some "misc", strListV (bucketMisc (recordSubjects r)))]) := by
  unfold getSubjects
  rw [subjects_foldlM_partition (recordSubjects r) ([], [], []) h]
  rfl

theorem getSubjects_partition_witness :
    getSubjects wRec = .ok (.dict
      [(some "unbist", strListV ["CLIMATE"]),
       (some "unbisn", strListV ["NILE"]),
       (some "misc", strListV ["EGYPT"])]) :=
  (getSubjects_partition wRec (by decide)).trans rfl

/-- Claim C9: a call to the shared request routines with an output format
other than the supported kinds (`marcxml` and `json` for `_query`, only
`marcxml` for `_queryUnofficial`) fails with the explicit
`NotImplementedError`, producing no fallback result (provided the GET
itself did not already raise a transport error). -/
theorem unsupported_format_not_implemented (params : List (String × String))
    (fmt fmtU : String) (apiKey searchId : Option String) (resp : APIResponse)
    (h1 : fmt ≠ "marcxml") (h2 : fmt ≠ "json") (h3 : fmtU ≠ "marcxml")
    (h4 : resp ≠ .transportFailure) :
    (underscoreQuery params fmt apiKey searchId resp).2 =
      .error .notImplemented ∧
    (underscoreQueryUnofficial params fmtU resp).2 =
      .error .notImplemented := by
  constructor
  · unfold underscoreQuery
    cases resp with
    | transportFailure => exact absurd rfl h4
    | xml t s recs => split <;> simp_all
    | jsonBody v => split <;> simp_all
    | marcCollection recs => split <;> simp_all
    | malformed => split <;> simp_all
  · unfold underscoreQueryUnofficial
    cases resp with
    | transportFailure => exact absurd rfl h4
    | xml t s recs => split <;> simp_all
    | jsonBody v => split <;> simp_all
    | marcCollection recs => split <;> simp_all
    | malformed => split <;> simp_all

theorem unsupported_format_witness :
    (underscoreQuery [] "bibtex" none none .malformed).2 =
      .error .notImplemented ∧
    (underscoreQueryUnofficial [] "btex" .malformed).2 =
      .error .notImplemented :=
  unsupported_format_not_implemented [] "bibtex" "btex" none none .malformed
    (by decide) (by decide) (by decide)
    (fun h => APIResponse.noConfusion h)

/-- Claim C10: when the shared request routine fails (unsupported format,
transport failure, parse failure), `query`, `getAllRecordIds` and
`queryById` leave their caches unchanged — a cache entry is stored only
after a successful return. -/
theorem failed_call_leaves_caches (st : ClientState)
    (prompt outputFormat lang recordId : String)
    (apiKey searchId : Option String) (resp : APIResponse) (e : PyError) :
    ((query st prompt outputFormat lang apiKey searchId resp).1 = .error e →
      (query st prompt outputFormat lang apiKey searchId resp).2.1 = st) ∧
    ((getAllRecordIds st prompt apiKey resp).1 = .error e →
      (getAllRecordIds st prompt apiKey resp).2.1 = st) ∧
    ((queryById st recordId resp).1 = .error e →
      (queryById st recordId resp).2.1 = st) := by
  refine ⟨?_, ?_, ?_⟩
  · intro h
    unfold query at h ⊢
    cases hc : st.query_cache.lookup prompt with
    | some v => simp_all
    | none =>
      simp only [hc] at h ⊢
      cases hr : (queryCall prompt outputFormat lang apiKey searchId resp).2 with
      | ok v => simp_all
      | error e2 => simp_all
  · intro h
    unfold getAllRecordIds at h ⊢
    cases hc : st.id_cache.lookup prompt with
    | some v => simp_all
    | none =>
      simp only [hc] at h ⊢
      cases hr : (idsCall prompt apiKey resp).2 with
      | ok v => simp_all
      | error e2 => simp_all
  · intro h
    unfold queryById at h ⊢
    cases hc : st.record_cache.lookup recordId with
    | some v => simp_all
    | none =>
      simp only [hc] at h ⊢
      cases hr : (byIdCall recordId resp).2 with
      | ok v => simp_all
      | error e2 => simp_all

theorem failed_call_leaves_caches_witness :
    (query ⟨[], [], []⟩ "p" "xml" "en" none none .malformed).2.1 =
      ⟨[], [], []⟩ :=
  (failed_call_leaves_caches ⟨[], [], []⟩ "p" "xml" "en" "r" none none
    .malformed .xmlParseError).1 rfl
